import Mathlib

/-!
# Verification of the Daily Expense Tracker backend

Shallow embedding of the expense tracker backend (`src/main.py`,
`src/schemas.py`).  Pure functions of the source become Lean functions;
the MongoDB document store (`database.py`, which is not part of the
sources) is modelled from the specification as a list of documents with
store-assigned identifiers.  Machine floats are represented by exact
rationals; Python `round(x, 2)` is modelled by round-half-to-even at two
decimal places on rationals.
-/

namespace ExpenseTracker

/-! ## Calendar dates and datetimes (Python `datetime.date` / `datetime.datetime`) -/

/-- A calendar date `YYYY-MM-DD`. -/
structure Date where
  year : Nat
  month : Nat
  day : Nat
deriving DecidableEq, Repr

/-- A time of day, as in Python `datetime.time` (microsecond resolution). -/
structure Time where
  hour : Nat
  minute : Nat
  second : Nat
  microsecond : Nat
deriving DecidableEq, Repr

/-- A datetime, as in Python `datetime.datetime`. -/
structure DateTime where
  date : Date
  time : Time
deriving DecidableEq, Repr

/-- Python `datetime.min.time()`, i.e. `time.min`: midnight `00:00:00.000000`. -/
def Time.minT : Time := ⟨0, 0, 0, 0⟩

/-- Python `datetime.max.time()`: `23:59:59.999999`. -/
def Time.maxT : Time := ⟨23, 59, 59, 999999⟩

/-- Microseconds since midnight; orders valid times lexicographically. -/
def Time.key (t : Time) : Nat :=
  ((t.hour * 60 + t.minute) * 60 + t.second) * 1000000 + t.microsecond

/-- Injective monotone key for valid dates (month ≤ 12 < 16, day ≤ 31 < 32). -/
def Date.key (d : Date) : Nat :=
  (d.year * 16 + d.month) * 32 + d.day

/-- Key ordering datetimes chronologically (valid times occupy
`[0, 86400000000)` microseconds within a day). -/
def DateTime.key (x : DateTime) : Nat :=
  x.date.key * 86400000000 + x.time.key

/-- Chronological order on datetimes, used by the store's range queries. -/
def DateTime.le (a b : DateTime) : Bool := a.key ≤ b.key

/-- Strict chronological order on datetimes. -/
def DateTime.lt (a b : DateTime) : Bool := a.key < b.key

/-- Python `datetime.combine(d, t)`. -/
def combine (d : Date) (t : Time) : DateTime := ⟨d, t⟩

/-- Gregorian leap-year test, as in Python `calendar.isleap`. -/
def isLeapYear (y : Nat) : Bool :=
  (y % 4 == 0 && y % 100 != 0) || y % 400 == 0

/-- Number of days in a given month of a given year. -/
def daysInMonth (y m : Nat) : Nat :=
  if m = 2 then (if isLeapYear y then 29 else 28)
  else if m = 4 ∨ m = 6 ∨ m = 9 ∨ m = 11 then 30
  else 31

/-- Validity of a calendar date, with the Python `datetime` year range. -/
def Date.valid (d : Date) : Bool :=
  1 ≤ d.year && d.year ≤ 9999 &&
  1 ≤ d.month && d.month ≤ 12 &&
  1 ≤ d.day && d.day ≤ daysInMonth d.year d.month

/-! ## Parsing and rendering of dates

Modelled from the spec: the serialization layer (pydantic / `datetime`)
is an external collaborator; the spec requires `date` to "parse as a
calendar date in `YYYY-MM-DD` form" and timestamps to be "rendered as
ISO-8601 text". -/

/-- Value of a decimal digit character (codepoints 48-57), `none` on
any other character. -/
def digitVal (c : Char) : Option Nat :=
  if 48 ≤ c.toNat ∧ c.toNat ≤ 57 then some (c.toNat - 48) else none

/-- The character for a decimal digit. -/
def digitChar (n : Nat) : Char :=
  match n with
  | 0 => '0' | 1 => '1' | 2 => '2' | 3 => '3' | 4 => '4'
  | 5 => '5' | 6 => '6' | 7 => '7' | 8 => '8' | 9 => '9'
  | _ => '?'

/-- Parse exactly the characters of a `YYYY-MM-DD` string. -/
def parseDateChars : List Char → Option Date
  | [y3, y2, y1, y0, '-', m1, m0, '-', d1, d0] =>
    match digitVal y3, digitVal y2, digitVal y1, digitVal y0,
          digitVal m1, digitVal m0, digitVal d1, digitVal d0 with
    | some a, some b, some c, some d, some e, some f, some g, some h =>
      some ⟨((a * 10 + b) * 10 + c) * 10 + d, e * 10 + f, g * 10 + h⟩
    | _, _, _, _, _, _, _, _ => none
  | _ => none

/-- Modelled from the spec: pydantic's date validation for the field
`date: dt.date` — the payload date "must parse as a calendar date in
`YYYY-MM-DD` form" (`database.py`-independent, serialization-layer). -/
def parseDate (s : String) : Option Date :=
  (parseDateChars s.toList).bind (fun d => if d.valid then some d else none)

/-- The ten characters `YYYY-MM-DD` of a date. -/
def Date.isoChars (d : Date) : List Char :=
  [digitChar (d.year / 1000 % 10), digitChar (d.year / 100 % 10),
   digitChar (d.year / 10 % 10), digitChar (d.year % 10), '-',
   digitChar (d.month / 10 % 10), digitChar (d.month % 10), '-',
   digitChar (d.day / 10 % 10), digitChar (d.day % 10)]

/-- The characters `HH:MM:SS[.ffffff]` of a time, as in Python
`time.isoformat()` (microseconds omitted when zero). -/
def Time.isoChars (t : Time) : List Char :=
  [digitChar (t.hour / 10 % 10), digitChar (t.hour % 10), ':',
   digitChar (t.minute / 10 % 10), digitChar (t.minute % 10), ':',
   digitChar (t.second / 10 % 10), digitChar (t.second % 10)] ++
  (if t.microsecond = 0 then [] else
    '.' :: [digitChar (t.microsecond / 100000 % 10), digitChar (t.microsecond / 10000 % 10),
            digitChar (t.microsecond / 1000 % 10), digitChar (t.microsecond / 100 % 10),
            digitChar (t.microsecond / 10 % 10), digitChar (t.microsecond % 10)])

/-- Python `datetime.isoformat()`: `YYYY-MM-DDTHH:MM:SS[.ffffff]`. -/
def DateTime.isoformat (x : DateTime) : String :=
  String.mk (x.date.isoChars ++ 'T' :: x.time.isoChars)

/-- The calendar-date component of an ISO-8601 datetime string:
its first ten characters, decoded as a `YYYY-MM-DD` date. -/
def decodeCalendarDate (s : String) : Option Date :=
  parseDate (String.mk (s.toList.take 10))

/-! ## Schemas (`src/schemas.py`) -/

/-- `schemas.ExpenseCategory`: the fixed closed set of category labels. -/
def ExpenseCategory : List String :=
  ["Makanan & Minuman", "Transportasi", "Belanja", "Tagihan",
   "Kesehatan", "Hiburan", "Pendidikan", "Lainnya"]

/-- A raw JSON body for `POST /api/expenses`, before any validation.
`amount = none` models a JSON value that does not coerce to a float
(non-numeric); `date` is the raw date text. -/
structure RawPayload where
  amount : Option ℚ
  category : String
  date : String
  notes : Option String
  payment_method : Option String
  merchant : Option String
deriving DecidableEq, Repr

/-- `main.ExpenseCreate`: the request model FastAPI parses the body
into (`amount: float`, `category: str`, `date: date`, optional text
fields).  Parse failure rejects the request before the handler runs. -/
structure ExpenseCreate where
  amount : ℚ
  category : String
  date : Date
  notes : Option String
  payment_method : Option String
  merchant : Option String
deriving DecidableEq, Repr

/-- FastAPI/pydantic parsing of the body into `ExpenseCreate`:
`amount` must be numeric and `date` must parse as `YYYY-MM-DD`. -/
def parseExpenseCreate (raw : RawPayload) : Option ExpenseCreate :=
  match raw.amount, parseDate raw.date with
  | some q, some d =>
    some ⟨q, raw.category, d, raw.notes, raw.payment_method, raw.merchant⟩
  | _, _ => none

/-- `schemas.Expense`: the validated expense record
(`amount: float = Field(..., gt=0)`, `category: ExpenseCategory`). -/
structure Expense where
  amount : ℚ
  category : String
  date : Date
  notes : Option String
  payment_method : Option String
  merchant : Option String
deriving DecidableEq, Repr

/-- Validation performed by constructing `schemas.Expense` in
`add_expense` (line 73): `amount` strictly positive, `category` an
exact, case-sensitive member of `ExpenseCategory`.  Returns a single
aggregated validation error message on failure. -/
def validateExpense (p : ExpenseCreate) : Except String Expense :=
  if ¬ (0 < p.amount) then
    .error "Input should be greater than 0"
  else if ¬ (p.category ∈ ExpenseCategory) then
    .error "Input should be a valid expense category"
  else
    .ok ⟨p.amount, p.category, p.date, p.notes, p.payment_method, p.merchant⟩

/-! ## The document store

Modelled from the spec: `database.py` (`db`, `create_document`,
`get_documents`) is not among the sources.  Per the spec, the store is
an external document store holding schemaless documents with fields
`amount` (number), `category` (string), `date` (timestamp), optional
text fields and optional store-assigned timestamps; `create_document`
inserts a document and returns a store-assigned non-empty identifier;
`get_documents` returns the documents matching a filter, subject to an
optional result-count limit. -/

/-- A stored timestamp value: either a full datetime or a bare date
(a "date-only value without a time component"). -/
inductive StoredDateVal where
  | dt (t : DateTime)
  | dOnly (d : Date)
deriving DecidableEq, Repr

/-- A document of the `expense` collection.  Fields other than the
identifier are optional because the store is schemaless. -/
structure StoredDoc where
  oid : String
  amount : Option ℚ
  category : Option String
  date : Option StoredDateVal
  notes : Option String
  payment_method : Option String
  merchant : Option String
  created_at : Option DateTime
  updated_at : Option DateTime
deriving DecidableEq, Repr

/-- The store filters built by the endpoints: an optional equality
constraint on `category` and optional `$gte` / `$lte` / `$lt`
constraints on `date`. -/
structure ExpenseFilter where
  category : Option String := none
  dateGte : Option DateTime := none
  dateLte : Option DateTime := none
  dateLt : Option DateTime := none
deriving DecidableEq, Repr

/-- The `date` value of a document as a datetime for range comparison
(a range constraint only matches documents carrying a datetime value). -/
def StoredDoc.dateTime (d : StoredDoc) : Option DateTime :=
  match d.date with
  | some (.dt t) => some t
  | some (.dOnly dd) => some (combine dd Time.minT)
  | none => none

/-- An optional equality constraint on `category`: requires the field
present and equal when the constraint is present. -/
def matchCategory (fc : Option String) (d : StoredDoc) : Bool :=
  match fc with
  | some c => d.category == some c
  | none => true

/-- An optional `$gte` constraint on `date`: requires a date present
and at or after the bound. -/
def matchGte (b : Option DateTime) (d : StoredDoc) : Bool :=
  match b with
  | some lo => match d.dateTime with
    | some t => lo.le t
    | none => false
  | none => true

/-- An optional `$lte` constraint on `date`: requires a date present
and at or before the bound. -/
def matchLte (b : Option DateTime) (d : StoredDoc) : Bool :=
  match b with
  | some hi => match d.dateTime with
    | some t => t.le hi
    | none => false
  | none => true

/-- An optional `$lt` constraint on `date`: requires a date present and
strictly before the bound. -/
def matchLt (b : Option DateTime) (d : StoredDoc) : Bool :=
  match b with
  | some hi => match d.dateTime with
    | some t => t.lt hi
    | none => false
  | none => true

/-- MongoDB matching semantics for the filters above: the conjunction
of the constraints present in the filter. -/
def matchesFilter (f : ExpenseFilter) (d : StoredDoc) : Bool :=
  matchCategory f.category d && matchGte f.dateGte d &&
  matchLte f.dateLte d && matchLt f.dateLt d

/-- Modelled from the spec: `database.get_documents` — return the
documents of the collection matching the filter; `limit = some n`
caps the result at `n` documents, `limit = none` (the summary path)
returns all matched records. -/
def get_documents (f : ExpenseFilter) (limit : Option Nat) (store : List StoredDoc) :
    List StoredDoc :=
  match limit with
  | some n => (store.filter (matchesFilter f)).take n
  | none => store.filter (matchesFilter f)

/-- The data inserted into the store by `add_expense`: the dump of the
validated `Expense` with `date` converted for storage. -/
structure DocData where
  amount : ℚ
  category : String
  date : StoredDateVal
  notes : Option String
  payment_method : Option String
  merchant : Option String
deriving DecidableEq, Repr

/-- Modelled from the spec: `database.create_document` — insert the
document and return the store-assigned, non-empty, opaque identifier. -/
def create_document (data : DocData) (store : List StoredDoc) :
    String × List StoredDoc :=
  let newId := "oid" ++ toString store.length
  (newId,
   store ++ [⟨newId, some data.amount, some data.category, some data.date,
              data.notes, data.payment_method, data.merchant, none, none⟩])

/-! ## Endpoints (`src/main.py`) -/

/-- An HTTP outcome: a success value or an `HTTPException`-style error
with a status code and detail message. -/
inductive Resp (α : Type) where
  | ok (a : α)
  | err (status : Nat) (detail : String)
deriving DecidableEq, Repr

/-- Whether an outcome is an error of the client (4xx) class. -/
def Resp.isClientError {α : Type} : Resp α → Bool
  | .ok _ => false
  | .err s _ => 400 ≤ s && s < 500

/-- The success body of `POST /api/expenses`. -/
structure AddResponse where
  id : String
  message : String
deriving DecidableEq, Repr

/-- `main.add_expense` (`POST /api/expenses`), lines 69-82, including
the FastAPI body-parsing step that precedes the handler: parse the body
into `ExpenseCreate` (422 on failure), re-validate via
`schemas.Expense` (400 on failure), convert the `date` to a datetime at
start of day for storage, insert, and return the new identifier. -/
def add_expense (raw : RawPayload) (store : List StoredDoc) :
    Resp AddResponse × List StoredDoc :=
  match parseExpenseCreate raw with
  | none => (.err 422 "Request validation error", store)
  | some payload =>
    match validateExpense payload with
    | .error e => (.err 400 e, store)
    | .ok exp =>
      let data : DocData :=
        ⟨exp.amount, exp.category, .dt (combine exp.date Time.minT),
         exp.notes, exp.payment_method, exp.merchant⟩
      let res := create_document data store
      (.ok ⟨res.1, "Expense added"⟩, res.2)

/-- A truthiness test on an optional string, as in Python `if category:`
(`None` and the empty string are falsy). -/
def truthyStr : Option String → Bool
  | some s => s ≠ ""
  | none => false

/-- The filter built by `main.list_expenses`, lines 86-95: truthy
`category` gives an equality constraint; `start` gives
`$gte combine(start, datetime.min.time())`; `end` gives
`$lte combine(end, datetime.max.time())`. -/
def buildListFilter (category : Option String) (start end_ : Option Date) :
    ExpenseFilter :=
  { category := if truthyStr category then category else none
    dateGte := start.map (fun d => combine d Time.minT)
    dateLte := end_.map (fun d => combine d Time.maxT)
    dateLt := none }

/-- A returned list item after output shaping: identifier exposed as
text, timestamps rendered as ISO-8601 text. -/
structure ShapedDoc where
  id : String
  amount : Option ℚ
  category : Option String
  date : Option String
  notes : Option String
  payment_method : Option String
  merchant : Option String
  created_at : Option String
  updated_at : Option String
deriving DecidableEq, Repr

/-- Output shaping of `main.list_expenses`, lines 99-108: `_id` popped
into a text `id`; a datetime `date` rendered with `isoformat`; a bare
date `date` combined with `time.min` then rendered; `created_at` and
`updated_at` rendered when present. -/
def shapeDoc (d : StoredDoc) : ShapedDoc :=
  { id := d.oid
    amount := d.amount
    category := d.category
    date := match d.date with
      | some (.dt t) => some t.isoformat
      | some (.dOnly dd) => some (combine dd Time.minT).isoformat
      | none => none
    notes := d.notes
    payment_method := d.payment_method
    merchant := d.merchant
    created_at := d.created_at.map DateTime.isoformat
    updated_at := d.updated_at.map DateTime.isoformat }

/-- `main.list_expenses` (`GET /api/expenses`), lines 84-109: build the
filter, fetch with the given limit (default 100), shape the output. -/
def list_expenses (category : Option String) (start end_ : Option Date)
    (limit : Nat) (store : List StoredDoc) : List ShapedDoc :=
  (get_documents (buildListFilter category start end_) (some limit) store).map shapeDoc

/-- A truthiness test on an optional integer, as in Python
`if month and year:` (`None` and `0` are falsy). -/
def truthyInt : Option Int → Bool
  | some n => n ≠ 0
  | none => false

/-- Python `datetime(year, month, day)`: raises `ValueError` unless the
fields form a valid date in years 1-9999. -/
def mkDatetime (year month day : Int) : Except String DateTime :=
  if 1 ≤ year ∧ year ≤ 9999 ∧ 1 ≤ month ∧ month ≤ 12 ∧
         1 ≤ day ∧ day ≤ (daysInMonth year.toNat month.toNat : Int) then
    .ok (combine ⟨year.toNat, month.toNat, day.toNat⟩ Time.minT)
  else
    .error "ValueError: invalid datetime"

/-- The filter built by `main.get_summary`, lines 115-122: when both
`month` and `year` are truthy, `$gte` the first of the month and `$lt`
the first of the next month (December rolls to January of `year+1`);
otherwise no filter.  A `ValueError` from `datetime` propagates. -/
def buildSummaryFilter (month year : Option Int) : Except String ExpenseFilter :=
  if truthyInt month && truthyInt year then do
    let m := month.getD 0
    let y := year.getD 0
    let start_dt ← mkDatetime y m 1
    let end_dt ← if m == 12 then mkDatetime (y + 1) 1 1 else mkDatetime y (m + 1) 1
    pure { category := none, dateGte := some start_dt, dateLte := none,
           dateLt := some end_dt }
  else
    pure {}

/-- Python dict lookup in the `per_category` accumulator. -/
def dictGet (l : List (String × ℚ)) (k : String) : Option ℚ :=
  match l with
  | [] => none
  | (a, b) :: t => if a = k then some b else dictGet t k

/-- Python dict assignment `per_category[cat] = v`: update in place,
or append a new key at the end (insertion order preserved). -/
def dictSet (l : List (String × ℚ)) (k : String) (v : ℚ) : List (String × ℚ) :=
  match l with
  | [] => [(k, v)]
  | (a, b) :: t => if a = k then (a, v) :: t else (a, b) :: dictSet t k v

/-- `d.get("amount", 0)` coerced to float. -/
def effAmount (d : StoredDoc) : ℚ := d.amount.getD 0

/-- `d.get("category", "Lainnya")`. -/
def effCat (d : StoredDoc) : String := d.category.getD "Lainnya"

/-- The aggregation loop of `main.get_summary`, lines 125-131:
accumulate the running total and the per-category dict over the
matched documents. -/
def aggLoop (total : ℚ) (per_category : List (String × ℚ)) :
    List StoredDoc → ℚ × List (String × ℚ)
  | [] => (total, per_category)
  | d :: rest =>
    let amt := effAmount d
    let cat := effCat d
    aggLoop (total + amt)
      (dictSet per_category cat ((dictGet per_category cat).getD 0 + amt)) rest

/-- Round half to even to an integer, as Python `round` on exact values. -/
def roundHalfEven (q : ℚ) : Int :=
  let f := ⌊q⌋
  let r := q - f
  if r < 1/2 then f
  else if 1/2 < r then f + 1
  else if f % 2 = 0 then f else f + 1

/-- Python `round(x, 2)`: round half to even at two decimal places. -/
def round2 (q : ℚ) : ℚ := (roundHalfEven (q * 100) : ℚ) / 100

/-- The success body of `GET /api/summary`. -/
structure SummaryResponse where
  total : ℚ
  per_category : List (String × ℚ)
deriving DecidableEq, Repr

/-- `main.get_summary` (`GET /api/summary`), lines 111-137: build the
month filter, fetch all matched records, aggregate total and
per-category sums, round to two decimals; any exception becomes a 400
client error. -/
def get_summary (month year : Option Int) (store : List StoredDoc) :
    Resp SummaryResponse :=
  match buildSummaryFilter month year with
  | .error e => .err 400 e
  | .ok f =>
    let docs := get_documents f none store
    let agg := aggLoop 0 [] docs
    .ok { total := round2 agg.1
          per_category := agg.2.map (fun kv => (kv.1, round2 kv.2)) }

/-! ## Spec-side predicates, for comparison with the code's filters -/

/-- The spec's description of the list filter: exact category equality
when `category` is present; record date at or after start-of-day of
`start` when present; record date at or before end-of-day of `end` when
present; match-all when nothing is supplied. -/
def listSpecMatch (category : Option String) (start end_ : Option Date)
    (d : StoredDoc) : Prop :=
  (∀ c, category = some c → d.category = some c) ∧
  (∀ sd, start = some sd →
    ∃ t, d.dateTime = some t ∧ (combine sd Time.minT).key ≤ t.key) ∧
  (∀ ed, end_ = some ed →
    ∃ t, d.dateTime = some t ∧ t.key ≤ (combine ed Time.maxT).key)

/-- Start-of-day of the first day of the given month. -/
def firstOfMonth (year month : Int) : DateTime :=
  combine ⟨year.toNat, month.toNat, 1⟩ Time.minT

/-- Start-of-day of the first day of the next month, December rolling
over to January of `year + 1`. -/
def firstOfNextMonth (year month : Int) : DateTime :=
  if month = 12 then combine ⟨(year + 1).toNat, 1, 1⟩ Time.minT
  else combine ⟨year.toNat, (month + 1).toNat, 1⟩ Time.minT

/-- The sum of the (effective) amounts of a list of documents. -/
def sumAmounts (docs : List StoredDoc) : ℚ :=
  (docs.map effAmount).sum

/-- The sum of the amounts of the documents whose effective category
is `k`. -/
def sumAmountsFor (k : String) (docs : List StoredDoc) : ℚ :=
  ((docs.filter (fun d => effCat d = k)).map effAmount).sum

/-- A sample stored document with a given amount, dated start-of-day of
a given date, carrying no category. -/
def sampleDoc (a : ℚ) (dt : Date) : StoredDoc :=
  ⟨"sample", some a, none, some (.dt (combine dt Time.minT)), none, none, none,
   none, none⟩

/-! ## Helper lemmas -/

theorem daysInMonth_pos (y m : Nat) : 1 ≤ daysInMonth y m := by
  unfold daysInMonth
  split_ifs <;> norm_num

theorem daysInMonth_le (y m : Nat) : daysInMonth y m ≤ 31 := by
  unfold daysInMonth
  split_ifs <;> norm_num

theorem digitVal_digitChar (n : Nat) (h : n < 10) :
    digitVal (digitChar n) = some n := by
  interval_cases n <;> rfl

theorem parseDate_valid {s : String} {d : Date} (h : parseDate s = some d) :
    d.valid = true := by
  unfold parseDate at h
  cases hp : parseDateChars s.toList with
  | none => rw [hp] at h; simp at h
  | some d0 =>
    rw [hp] at h
    by_cases hv : d0.valid = true
    · simp only [Option.some_bind, if_pos hv, Option.some.injEq] at h
      rw [← h]
      exact hv
    · simp [hv] at h

theorem parseDate_isoChars (d : Date) (h : d.valid = true) :
    parseDate (String.mk d.isoChars) = some d := by
  obtain ⟨y, m, dd⟩ := d
  have hb := h
  simp only [Date.valid, Bool.and_eq_true, decide_eq_true_eq] at hb
  obtain ⟨⟨⟨⟨⟨hy1, hy2⟩, hm1⟩, hm2⟩, hd1⟩, hd2⟩ := hb
  have hdle : dd ≤ 31 := le_trans hd2 (daysInMonth_le y m)
  have e1 := digitVal_digitChar (y / 1000 % 10) (Nat.mod_lt _ (by norm_num))
  have e2 := digitVal_digitChar (y / 100 % 10) (Nat.mod_lt _ (by norm_num))
  have e3 := digitVal_digitChar (y / 10 % 10) (Nat.mod_lt _ (by norm_num))
  have e4 := digitVal_digitChar (y % 10) (Nat.mod_lt _ (by norm_num))
  have e5 := digitVal_digitChar (m / 10 % 10) (Nat.mod_lt _ (by norm_num))
  have e6 := digitVal_digitChar (m % 10) (Nat.mod_lt _ (by norm_num))
  have e7 := digitVal_digitChar (dd / 10 % 10) (Nat.mod_lt _ (by norm_num))
  have e8 := digitVal_digitChar (dd % 10) (Nat.mod_lt _ (by norm_num))
  have hyv : ((y / 1000 % 10 * 10 + y / 100 % 10) * 10 + y / 10 % 10) * 10 + y % 10 = y := by
    omega
  have hmv : m / 10 % 10 * 10 + m % 10 = m := by omega
  have hdv : dd / 10 % 10 * 10 + dd % 10 = dd := by omega
  unfold parseDate
  have htl : (String.mk (Date.isoChars ⟨y, m, dd⟩)).toList = Date.isoChars ⟨y, m, dd⟩ := rfl
  rw [htl]
  unfold Date.isoChars
  simp only [parseDateChars, e1, e2, e3, e4, e5, e6, e7, e8]
  rw [hyv, hmv, hdv]
  simp [h]

theorem decode_isoformat (d : Date) (t : Time) (h : d.valid = true) :
    decodeCalendarDate (DateTime.isoformat ⟨d, t⟩) = some d := by
  unfold decodeCalendarDate DateTime.isoformat
  have htl : (String.mk (d.isoChars ++ 'T' :: t.isoChars)).toList =
      d.isoChars ++ 'T' :: t.isoChars := rfl
  rw [htl]
  have hlen : d.isoChars.length = 10 := rfl
  rw [show (10 : Nat) = d.isoChars.length from hlen.symm, List.take_left]
  exact parseDate_isoChars d h

theorem matchesFilter_empty (d : StoredDoc) : matchesFilter {} d = true := rfl

theorem dictGet_dictSet_self (l : List (String × ℚ)) (k : String) (v : ℚ) :
    dictGet (dictSet l k v) k = some v := by
  induction l with
  | nil => simp [dictSet, dictGet]
  | cons a t ih =>
    by_cases hak : a.1 = k
    · simp [dictSet, dictGet, hak]
    · simp [dictSet, dictGet, hak, ih]

theorem dictGet_dictSet_ne (l : List (String × ℚ)) (k k' : String) (v : ℚ)
    (h : k' ≠ k) : dictGet (dictSet l k' v) k = dictGet l k := by
  induction l with
  | nil => simp [dictSet, dictGet, h]
  | cons a t ih =>
    by_cases hak : a.1 = k'
    · simp [dictSet, dictGet, hak, h]
    · simp only [dictSet, hak, if_neg hak, dictGet]
      by_cases hk : a.1 = k
      · simp [dictGet, hk]
      · simp [dictGet, hk, ih]

theorem dictGet_map_round2 (l : List (String × ℚ)) (k : String) :
    dictGet (l.map (fun kv => (kv.1, round2 kv.2))) k = (dictGet l k).map round2 := by
  induction l with
  | nil => simp [dictGet]
  | cons a t ih =>
    by_cases hk : a.1 = k
    · simp [dictGet, hk]
    · simp [dictGet, hk, ih]

theorem aggLoop_total (docs : List StoredDoc) :
    ∀ (total : ℚ) (pc : List (String × ℚ)),
      (aggLoop total pc docs).1 = total + sumAmounts docs := by
  induction docs with
  | nil => intro total pc; simp [aggLoop, sumAmounts]
  | cons d rest ih =>
    intro total pc
    rw [aggLoop, ih]
    simp [sumAmounts]
    ring

theorem sumAmountsFor_cons_pos (d : StoredDoc) (rest : List StoredDoc) (k : String)
    (hcat : effCat d = k) :
    sumAmountsFor k (d :: rest) = effAmount d + sumAmountsFor k rest := by
  unfold sumAmountsFor
  rw [List.filter_cons_of_pos (by simp [hcat])]
  simp

theorem sumAmountsFor_cons_neg (d : StoredDoc) (rest : List StoredDoc) (k : String)
    (hcat : ¬ effCat d = k) :
    sumAmountsFor k (d :: rest) = sumAmountsFor k rest := by
  unfold sumAmountsFor
  rw [List.filter_cons_of_neg (by simp [hcat])]

theorem aggLoop_perCategory (docs : List StoredDoc) (k : String) :
    ∀ (total : ℚ) (pc : List (String × ℚ)),
      dictGet (aggLoop total pc docs).2 k =
        match dictGet pc k with
        | some v => some (v + sumAmountsFor k docs)
        | none =>
          if (docs.map effCat).contains k then some (sumAmountsFor k docs)
          else none := by
  induction docs with
  | nil =>
    intro total pc
    cases hpc : dictGet pc k <;> simp [aggLoop, sumAmountsFor, hpc]
  | cons d rest ih =>
    intro total pc
    rw [aggLoop, ih]
    by_cases hcat : effCat d = k
    · rw [hcat, dictGet_dictSet_self]
      have hsum := sumAmountsFor_cons_pos d rest k hcat
      have hcon : ((d :: rest).map effCat).contains k = true := by
        simp [List.contains_cons, hcat]
      cases hpc : dictGet pc k with
      | none =>
        simp only [hpc, Option.getD_none, hsum, hcon, if_true, Option.some.injEq]
        ring
      | some v =>
        simp only [hpc, Option.getD_some, hsum, Option.some.injEq]
        ring
    · rw [dictGet_dictSet_ne _ _ _ _ hcat]
      have hsum := sumAmountsFor_cons_neg d rest k hcat
      have hcon : ((d :: rest).map effCat).contains k = (rest.map effCat).contains k := by
        simp [List.contains_cons, hcat]
        intro hk
        exact absurd hk.symm hcat
      rw [hsum, hcon]

theorem matchCategory_iff (category : Option String) (d : StoredDoc)
    (hc : category ≠ some "") :
    (matchCategory (if truthyStr category then category else none) d = true ↔
      ∀ c, category = some c → d.category = some c) := by
  cases category with
  | none => simp [matchCategory, truthyStr]
  | some c =>
    have hcne : c ≠ "" := fun he => hc (by rw [he])
    simp [matchCategory, truthyStr, hcne]

theorem matchGte_iff (start : Option Date) (d : StoredDoc) :
    (matchGte (start.map (fun s => combine s Time.minT)) d = true ↔
      ∀ sd, start = some sd →
        ∃ t, d.dateTime = some t ∧ (combine sd Time.minT).key ≤ t.key) := by
  cases start with
  | none => simp [matchGte]
  | some sd =>
    cases hdt : d.dateTime with
    | none => simp [matchGte, hdt]
    | some t => simp [matchGte, hdt, DateTime.le]

theorem matchLte_iff (end_ : Option Date) (d : StoredDoc) :
    (matchLte (end_.map (fun e => combine e Time.maxT)) d = true ↔
      ∀ ed, end_ = some ed →
        ∃ t, d.dateTime = some t ∧ t.key ≤ (combine ed Time.maxT).key) := by
  cases end_ with
  | none => simp [matchLte]
  | some ed =>
    cases hdt : d.dateTime with
    | none => simp [matchLte, hdt]
    | some t => simp [matchLte, hdt, DateTime.le]

/-! ## Claim theorems -/

/-- C1: for every expense payload in which `amount` is non-numeric or
not strictly greater than zero, or `category` is not an exact member of
the fixed category enumeration, or `date` does not parse as a
`YYYY-MM-DD` calendar date, `POST /api/expenses` fails with a single
validation error reported as a client error (4xx) and the store insert
is never reached: the store is unchanged. -/
theorem C1_invalid_payload_rejected (raw : RawPayload) (store : List StoredDoc)
    (h : raw.amount = none ∨ (∃ q, raw.amount = some q ∧ q ≤ 0) ∨
         raw.category ∉ ExpenseCategory ∨ parseDate raw.date = none) :
    ∃ s msg, add_expense raw store = (.err s msg, store) ∧ 400 ≤ s ∧ s < 500 := by
  cases hA : raw.amount with
  | none =>
    refine ⟨422, "Request validation error", ?_, by norm_num, by norm_num⟩
    simp [add_expense, parseExpenseCreate, hA]
  | some q =>
    cases hD : parseDate raw.date with
    | none =>
      refine ⟨422, "Request validation error", ?_, by norm_num, by norm_num⟩
      simp [add_expense, parseExpenseCreate, hA, hD]
    | some d =>
      have hbad : q ≤ 0 ∨ raw.category ∉ ExpenseCategory := by
        rcases h with h1 | ⟨q', hq', hle⟩ | h3 | h4
        · rw [hA] at h1; simp at h1
        · rw [hA] at hq'
          injection hq' with e
          exact Or.inl (e ▸ hle)
        · exact Or.inr h3
        · rw [hD] at h4; simp at h4
      by_cases hq : 0 < q
      · have hcm : raw.category ∉ ExpenseCategory := by
          rcases hbad with hle | hcm
          · exact absurd hq (not_lt.mpr hle)
          · exact hcm
        refine ⟨400, "Input should be a valid expense category", ?_, by norm_num,
                by norm_num⟩
        simp [add_expense, parseExpenseCreate, hA, hD, validateExpense, hq, hcm]
      · refine ⟨400, "Input should be greater than 0", ?_, by norm_num, by norm_num⟩
        simp [add_expense, parseExpenseCreate, hA, hD, validateExpense, hq]

/-- Witness for C1 at the payload `amount = -5`. -/
theorem C1_invalid_payload_rejected_witness :
    ∃ s msg,
      add_expense ⟨some (-5), "Makanan & Minuman", "2024-03-15", none, none, none⟩ [] =
        (.err s msg, []) ∧ 400 ≤ s ∧ s < 500 :=
  C1_invalid_payload_rejected _ _ (Or.inr (Or.inl ⟨-5, rfl, by norm_num⟩))

/-- C5: for every valid payload — numeric `amount` strictly greater
than 0, `category` a member of the fixed enumeration, `date` a
parseable `YYYY-MM-DD` date — `POST /api/expenses` succeeds and returns
a non-empty store-assigned identifier. -/
theorem C5_valid_payload_succeeds (raw : RawPayload) (store : List StoredDoc)
    (q : ℚ) (d : Date) (hq : raw.amount = some q) (hpos : 0 < q)
    (hcat : raw.category ∈ ExpenseCategory) (hd : parseDate raw.date = some d) :
    ∃ i store2, add_expense raw store = (.ok ⟨i, "Expense added"⟩, store2) ∧
      i ≠ "" := by
  have h1 : parseExpenseCreate raw =
      some ⟨q, raw.category, d, raw.notes, raw.payment_method, raw.merchant⟩ := by
    simp [parseExpenseCreate, hq, hd]
  have h2 : validateExpense ⟨q, raw.category, d, raw.notes, raw.payment_method,
      raw.merchant⟩ =
      .ok ⟨q, raw.category, d, raw.notes, raw.payment_method, raw.merchant⟩ := by
    unfold validateExpense
    rw [if_neg (by simpa using hpos), if_neg (by simpa using hcat)]
  refine ⟨"oid" ++ toString store.length,
          store ++ [⟨"oid" ++ toString store.length, some q, some raw.category,
                     some (.dt (combine d Time.minT)), raw.notes,
                     raw.payment_method, raw.merchant, none, none⟩], ?_, ?_⟩
  · simp only [add_expense, h1, h2, create_document]
  · intro hcontra
    have hlen := congrArg String.length hcontra
    rw [String.length_append] at hlen
    rw [show ("oid" : String).length = 3 from rfl,
        show ("" : String).length = 0 from rfl] at hlen
    omega

/-- Witness for C5 at a concrete valid payload. -/
theorem C5_valid_payload_succeeds_witness :
    ∃ i store2,
      add_expense ⟨some 100, "Belanja", "2024-03-15", none, none, none⟩ [] =
        (.ok ⟨i, "Expense added"⟩, store2) ∧ i ≠ "" :=
  C5_valid_payload_succeeds _ _ 100 ⟨2024, 3, 15⟩ rfl (by norm_num) (by decide) (by decide)

/-- C6: for every valid payload, the normalized record persisted by the
write operation carries the payload's date with an explicit
start-of-day time component, while `amount`, `category`, `notes`,
`payment_method` and `merchant` are passed through unchanged from the
input payload. -/
theorem C6_normalized_record (raw : RawPayload) (store : List StoredDoc)
    (q : ℚ) (d : Date) (hq : raw.amount = some q) (hpos : 0 < q)
    (hcat : raw.category ∈ ExpenseCategory) (hd : parseDate raw.date = some d) :
    ∃ i, add_expense raw store =
      (.ok ⟨i, "Expense added"⟩,
       store ++ [⟨i, some q, some raw.category, some (.dt (combine d Time.minT)),
                  raw.notes, raw.payment_method, raw.merchant, none, none⟩]) := by
  have h1 : parseExpenseCreate raw =
      some ⟨q, raw.category, d, raw.notes, raw.payment_method, raw.merchant⟩ := by
    simp [parseExpenseCreate, hq, hd]
  have h2 : validateExpense ⟨q, raw.category, d, raw.notes, raw.payment_method,
      raw.merchant⟩ =
      .ok ⟨q, raw.category, d, raw.notes, raw.payment_method, raw.merchant⟩ := by
    unfold validateExpense
    rw [if_neg (by simpa using hpos), if_neg (by simpa using hcat)]
  refine ⟨"oid" ++ toString store.length, ?_⟩
  simp only [add_expense, h1, h2, create_document]

/-- Witness for C6 at a concrete valid payload. -/
theorem C6_normalized_record_witness :
    ∃ i,
      add_expense ⟨some 100, "Belanja", "2024-03-15", some "n", some "cash",
                   some "m"⟩ [] =
        (.ok ⟨i, "Expense added"⟩,
         [⟨i, some 100, some "Belanja",
           some (.dt (combine ⟨2024, 3, 15⟩ Time.minT)),
           some "n", some "cash", some "m", none, none⟩]) :=
  C6_normalized_record _ _ 100 ⟨2024, 3, 15⟩ rfl (by norm_num) (by decide) (by decide)

/-- C2: `GET /api/expenses` builds its store filter so that (under the
filter's matching semantics) a supplied non-empty `category` is an
exact-equality constraint, a supplied `start` requires the record date
at or after start-of-day of `start`, a supplied `end` requires the
record date at or before end-of-day of `end` — both bounds inclusive
and independently combinable — and with no parameters supplied the
filter matches every record, subject to the default limit of 100. -/
theorem C2_list_filter_composition (category : Option String)
    (start end_ : Option Date) (d : StoredDoc) (store : List StoredDoc)
    (hc : category ≠ some "") :
    (matchesFilter (buildListFilter category start end_) d = true ↔
      listSpecMatch category start end_ d) ∧
    list_expenses none none none 100 store = (store.take 100).map shapeDoc := by
  constructor
  · unfold matchesFilter buildListFilter listSpecMatch
    simp only [Bool.and_eq_true]
    rw [show matchLt none d = true from rfl]
    constructor
    · rintro ⟨⟨⟨hcat, hgte⟩, hlte⟩, -⟩
      exact ⟨(matchCategory_iff category d hc).mp hcat,
             (matchGte_iff start d).mp hgte,
             (matchLte_iff end_ d).mp hlte⟩
    · rintro ⟨hcat, hgte, hlte⟩
      exact ⟨⟨⟨(matchCategory_iff category d hc).mpr hcat,
             (matchGte_iff start d).mpr hgte⟩,
             (matchLte_iff end_ d).mpr hlte⟩, rfl⟩
  · unfold list_expenses get_documents
    rw [show buildListFilter none none none = {} from rfl]
    rw [List.filter_eq_self.mpr (fun a _ => matchesFilter_empty a)]

/-- Witness for C2 at concrete parameters and a concrete document. -/
theorem C2_list_filter_composition_witness :
    (matchesFilter
        (buildListFilter (some "Belanja") (some ⟨2024, 2, 1⟩) (some ⟨2024, 2, 28⟩))
        (sampleDoc 10 ⟨2024, 2, 10⟩) = true ↔
      listSpecMatch (some "Belanja") (some ⟨2024, 2, 1⟩) (some ⟨2024, 2, 28⟩)
        (sampleDoc 10 ⟨2024, 2, 10⟩)) ∧
    list_expenses none none none 100 [sampleDoc 10 ⟨2024, 2, 10⟩] =
      ([sampleDoc 10 ⟨2024, 2, 10⟩].take 100).map shapeDoc :=
  C2_list_filter_composition (some "Belanja") (some ⟨2024, 2, 1⟩)
    (some ⟨2024, 2, 28⟩) (sampleDoc 10 ⟨2024, 2, 10⟩)
    [sampleDoc 10 ⟨2024, 2, 10⟩] (by decide)

/-- C3: for every supplied month `1..12` and year, `GET /api/summary`
filters to records whose date lies in the half-open interval from the
first day of that month (inclusive) to the first day of the next month
(exclusive), December rolling over to January of `year + 1`; in
particular `month=12, year=2024` includes a record dated `2024-12-31`
and excludes one dated `2025-01-01`. -/
theorem C3_summary_month_window (m y : Int) (d : StoredDoc)
    (hm1 : 1 ≤ m) (hm2 : m ≤ 12) (hy1 : 1 ≤ y) (hy2 : y ≤ 9998) :
    buildSummaryFilter (some m) (some y) =
      .ok { category := none, dateGte := some (firstOfMonth y m),
            dateLte := none, dateLt := some (firstOfNextMonth y m) } ∧
    (matchesFilter { category := none, dateGte := some (firstOfMonth y m),
                     dateLte := none, dateLt := some (firstOfNextMonth y m) } d = true ↔
      ∃ t, d.dateTime = some t ∧ (firstOfMonth y m).key ≤ t.key ∧
        t.key < (firstOfNextMonth y m).key) ∧
    get_summary (some 12) (some 2024)
        [sampleDoc 100 ⟨2024, 12, 31⟩, sampleDoc 50 ⟨2025, 1, 1⟩] =
      .ok { total := 100, per_category := [("Lainnya", 100)] } := by
  have hday1 : ∀ (a b : Int), 1 ≤ a → a ≤ 9999 → 1 ≤ b → b ≤ 12 →
      mkDatetime a b 1 = .ok (combine ⟨a.toNat, b.toNat, 1⟩ Time.minT) := by
    intro a b ha1 ha2 hb1 hb2
    unfold mkDatetime
    have hcond : 1 ≤ a ∧ a ≤ 9999 ∧ 1 ≤ b ∧ b ≤ 12 ∧ 1 ≤ (1 : Int) ∧
        (1 : Int) ≤ (daysInMonth a.toNat b.toNat : Int) := by
      refine ⟨ha1, ha2, hb1, hb2, le_refl 1, ?_⟩
      exact_mod_cast daysInMonth_pos a.toNat b.toNat
    rw [if_pos hcond]
    simp
  refine ⟨?_, ?_, ?_⟩
  · have htm : truthyInt (some m) = true := by
      simp only [truthyInt, ne_eq, decide_eq_true_eq]
      omega
    have hty : truthyInt (some y) = true := by
      simp only [truthyInt, ne_eq, decide_eq_true_eq]
      omega
    unfold buildSummaryFilter
    rw [htm, hty]
    simp only [Bool.and_self, if_true, Option.getD_some]
    by_cases hm12 : m = 12
    · subst hm12
      rw [hday1 y 12 hy1 (by omega) (by norm_num) (by norm_num)]
      rw [show ((12 : Int) == 12) = true from rfl]
      simp only [if_true]
      rw [hday1 (y + 1) 1 (by omega) (by omega) (by norm_num) (by norm_num)]
      unfold firstOfMonth firstOfNextMonth
      rw [if_pos rfl]
      rfl
    · rw [hday1 y m hy1 (by omega) hm1 hm2]
      rw [show (m == 12) = false by simp [hm12]]
      simp only [Bool.false_eq_true, if_false]
      rw [hday1 y (m + 1) hy1 (by omega) (by omega) (by omega)]
      unfold firstOfMonth firstOfNextMonth
      rw [if_neg hm12]
      rfl
  · cases hdt : d.dateTime with
    | none =>
      simp [matchesFilter, matchCategory, matchGte, matchLte, matchLt, hdt]
    | some t =>
      simp [matchesFilter, matchCategory, matchGte, matchLte, matchLt, hdt,
            DateTime.le, DateTime.lt]
  · have hf : buildSummaryFilter (some 12) (some 2024) =
        .ok { category := none,
              dateGte := some (combine ⟨2024, 12, 1⟩ Time.minT),
              dateLte := none,
              dateLt := some (combine ⟨2025, 1, 1⟩ Time.minT) } := by
      unfold buildSummaryFilter
      rw [show truthyInt (some (12 : Int)) = true from rfl,
          show truthyInt (some (2024 : Int)) = true from rfl]
      simp only [Bool.and_self, if_true, Option.getD_some]
      rw [hday1 2024 12 (by norm_num) (by norm_num) (by norm_num) (by norm_num)]
      rw [show ((12 : Int) == 12) = true from rfl]
      simp only [if_true]
      rw [show (2024 : Int) + 1 = 2025 from by norm_num]
      rw [hday1 2025 1 (by norm_num) (by norm_num) (by norm_num) (by norm_num)]
      rfl
    have hdocs : get_documents
        { category := none,
          dateGte := some (combine ⟨2024, 12, 1⟩ Time.minT),
          dateLte := none,
          dateLt := some (combine ⟨2025, 1, 1⟩ Time.minT) } none
        [sampleDoc 100 ⟨2024, 12, 31⟩, sampleDoc 50 ⟨2025, 1, 1⟩] =
        [sampleDoc 100 ⟨2024, 12, 31⟩] := by decide
    simp only [get_summary, hf, hdocs]
    simp only [aggLoop, effAmount, effCat, sampleDoc, Option.getD_some,
               Option.getD_none, dictGet, dictSet, List.map, zero_add]
    norm_num [round2, roundHalfEven]

/-- Witness for C3 at `month = 12`, `year = 2024` and a record dated
`2024-12-31`. -/
theorem C3_summary_month_window_witness :
    buildSummaryFilter (some 12) (some 2024) =
      .ok { category := none, dateGte := some (firstOfMonth 2024 12),
            dateLte := none, dateLt := some (firstOfNextMonth 2024 12) } ∧
    (matchesFilter { category := none, dateGte := some (firstOfMonth 2024 12),
                     dateLte := none, dateLt := some (firstOfNextMonth 2024 12) }
        (sampleDoc 100 ⟨2024, 12, 31⟩) = true ↔
      ∃ t, (sampleDoc 100 ⟨2024, 12, 31⟩).dateTime = some t ∧
        (firstOfMonth 2024 12).key ≤ t.key ∧
        t.key < (firstOfNextMonth 2024 12).key) ∧
    get_summary (some 12) (some 2024)
        [sampleDoc 100 ⟨2024, 12, 31⟩, sampleDoc 50 ⟨2025, 1, 1⟩] =
      .ok { total := 100, per_category := [("Lainnya", 100)] } :=
  C3_summary_month_window 12 2024 (sampleDoc 100 ⟨2024, 12, 31⟩)
    (by norm_num) (by norm_num) (by norm_num) (by norm_num)

/-- C4: for every set of matched records, `GET /api/summary` returns
`total` equal to the sum of all matched amounts rounded to two decimal
places, and `per_category` mapping each category label present in the
matched set to the two-decimal-rounded sum of its amounts, absent
categories omitted rather than zero-filled, with records lacking a
category aggregated into the "other" bucket (the label `"Lainnya"`). -/
theorem C4_summary_aggregation (month year : Option Int) (store : List StoredDoc)
    (f : ExpenseFilter) (hf : buildSummaryFilter month year = .ok f) :
    ∃ pc, get_summary month year store =
        .ok { total := round2 (sumAmounts (get_documents f none store)),
              per_category := pc } ∧
      (∀ k, dictGet pc k =
        if ((get_documents f none store).map effCat).contains k
        then some (round2 (sumAmountsFor k (get_documents f none store)))
        else none) ∧
      (∀ dd : StoredDoc, dd.category = none → effCat dd = "Lainnya") := by
  refine ⟨((aggLoop 0 [] (get_documents f none store)).2).map
            (fun kv => (kv.1, round2 kv.2)), ?_, ?_, ?_⟩
  · simp only [get_summary, hf]
    rw [aggLoop_total, zero_add]
  · intro k
    rw [dictGet_map_round2, aggLoop_perCategory]
    dsimp only [dictGet]
    by_cases hcon : ((get_documents f none store).map effCat).contains k = true
    · simp [hcon]
    · simp [hcon]
  · intro dd h
    simp [effCat, h]

/-- Witness for C4 over the whole store (no month filter) with two
records in distinct categories. -/
theorem C4_summary_aggregation_witness :
    ∃ pc, get_summary none none
        [⟨"a", some 100, some "Makanan & Minuman", none, none, none, none, none, none⟩,
         ⟨"b", some 50, some "Transportasi", none, none, none, none, none, none⟩] =
        .ok { total := round2 (sumAmounts (get_documents {} none
                [⟨"a", some 100, some "Makanan & Minuman", none, none, none, none, none, none⟩,
                 ⟨"b", some 50, some "Transportasi", none, none, none, none, none, none⟩])),
              per_category := pc } ∧
      (∀ k, dictGet pc k =
        if ((get_documents {} none
              [⟨"a", some 100, some "Makanan & Minuman", none, none, none, none, none, none⟩,
               ⟨"b", some 50, some "Transportasi", none, none, none, none, none, none⟩]).map
              effCat).contains k
        then some (round2 (sumAmountsFor k (get_documents {} none
              [⟨"a", some 100, some "Makanan & Minuman", none, none, none, none, none, none⟩,
               ⟨"b", some 50, some "Transportasi", none, none, none, none, none, none⟩])))
        else none) ∧
      (∀ dd : StoredDoc, dd.category = none → effCat dd = "Lainnya") :=
  C4_summary_aggregation none none
    [⟨"a", some 100, some "Makanan & Minuman", none, none, none, none, none, none⟩,
     ⟨"b", some 50, some "Transportasi", none, none, none, none, none, none⟩]
    {} rfl

/-- C7: a record written with a given calendar date and read back via
the list operation yields a `date` text value — an ISO-8601 string —
whose calendar-date component decodes to the original date; the stored
start-of-day time component does not alter the date. -/
theorem C7_write_read_roundtrip (raw : RawPayload) (store : List StoredDoc)
    (q : ℚ) (d : Date) (hq : raw.amount = some q) (hpos : 0 < q)
    (hcat : raw.category ∈ ExpenseCategory) (hd : parseDate raw.date = some d)
    (hlen : store.length < 100) :
    ∃ resp store2 item,
      add_expense raw store = (.ok resp, store2) ∧
      item ∈ list_expenses none none none 100 store2 ∧
      item.id = resp.id ∧
      ∃ s, item.date = some s ∧ decodeCalendarDate s = some d := by
  have hvalid : d.valid = true := parseDate_valid hd
  have h1 : parseExpenseCreate raw =
      some ⟨q, raw.category, d, raw.notes, raw.payment_method, raw.merchant⟩ := by
    simp [parseExpenseCreate, hq, hd]
  have h2 : validateExpense ⟨q, raw.category, d, raw.notes, raw.payment_method,
      raw.merchant⟩ =
      .ok ⟨q, raw.category, d, raw.notes, raw.payment_method, raw.merchant⟩ := by
    unfold validateExpense
    rw [if_neg (by simpa using hpos), if_neg (by simpa using hcat)]
  refine ⟨⟨"oid" ++ toString store.length, "Expense added"⟩,
          store ++ [⟨"oid" ++ toString store.length, some q, some raw.category,
                     some (.dt (combine d Time.minT)), raw.notes,
                     raw.payment_method, raw.merchant, none, none⟩],
          shapeDoc ⟨"oid" ++ toString store.length, some q, some raw.category,
                    some (.dt (combine d Time.minT)), raw.notes,
                    raw.payment_method, raw.merchant, none, none⟩,
          ?_, ?_, rfl, ?_⟩
  · simp only [add_expense, h1, h2, create_document]
  · simp only [list_expenses, get_documents]
    rw [show buildListFilter none none none = {} from rfl]
    rw [List.filter_eq_self.mpr (fun a _ => matchesFilter_empty a)]
    rw [List.take_of_length_le (by simp; omega)]
    exact List.mem_map_of_mem shapeDoc (by simp)
  · exact ⟨(combine d Time.minT).isoformat, rfl, decode_isoformat d Time.minT hvalid⟩

/-- Witness for C7 writing the date `2024-03-15` into an empty store. -/
theorem C7_write_read_roundtrip_witness :
    ∃ resp store2 item,
      add_expense ⟨some 100, "Belanja", "2024-03-15", none, none, none⟩ [] =
        (.ok resp, store2) ∧
      item ∈ list_expenses none none none 100 store2 ∧
      item.id = resp.id ∧
      ∃ s, item.date = some s ∧ decodeCalendarDate s = some ⟨2024, 3, 15⟩ :=
  C7_write_read_roundtrip _ _ 100 ⟨2024, 3, 15⟩ rfl (by norm_num) (by decide)
    (by decide) (by decide)

/-- C8: for every fixed store snapshot and fixed query parameters, two
invocations of the list operation (and of the summary operation) over
the same snapshot return identical results. -/
theorem C8_read_determinism (category : Option String) (start end_ : Option Date)
    (limit : Nat) (month year : Option Int) (store : List StoredDoc) :
    list_expenses category start end_ limit store =
      list_expenses category start end_ limit store ∧
    get_summary month year store = get_summary month year store :=
  ⟨rfl, rfl⟩

/-- C9: a supplied but empty `category` query parameter applies no
category constraint at all: the built filter equals the one built with
the parameter absent, its category constraint is `none`, and with no
date bounds it matches every record. -/
theorem C9_empty_category_ignored (start end_ : Option Date) (d : StoredDoc) :
    buildListFilter (some "") start end_ = buildListFilter none start end_ ∧
    (buildListFilter (some "") start end_).category = none ∧
    matchesFilter (buildListFilter (some "") none none) d = true :=
  ⟨rfl, rfl, rfl⟩

/-- C10: supplying `month = 0` or `year = 0` alongside the other
parameter applies no date filter at all: the summary equals the
unfiltered summary and is not a client error. -/
theorem C10_zero_month_or_year_unfiltered (m y : Int) (store : List StoredDoc) :
    get_summary (some 0) (some y) store = get_summary none none store ∧
    get_summary (some m) (some 0) store = get_summary none none store ∧
    (get_summary (some 0) (some y) store).isClientError = false := by
  have hf : buildSummaryFilter (some m) (some 0) = .ok {} := by
    unfold buildSummaryFilter
    rw [show truthyInt (some (0 : Int)) = false from rfl, Bool.and_false]
    rfl
  refine ⟨rfl, ?_, rfl⟩
  simp only [get_summary, hf]
  rfl

end ExpenseTracker
